import Mathlib

/-!
Verification of the slottify expression-templating engine.

Shallow embedding of the core of the repository:
the lexer and recursive-descent parser (`src/core/template-parser.ts`,
class `TemplateParser`) and the AST evaluator and engine facade
(`template-engine.ts`, class `TemplateEngine`).

Conventions of the embedding:
  - JavaScript dynamic values are the tagged union `Value`
    (string / number / boolean / null / undefined); numbers are modelled
    as integers (the templates in scope have no arithmetic).
  - Thrown JavaScript errors are modelled with `Except`: `compile` and
    `render` return `Except RenderError _`, so an error and a (partial)
    result are mutually exclusive by construction, mirroring `throw`.
  - The recursive-descent parser advances an index over the token array;
    here each parsing function consumes a token list and returns the
    remainder, with a fuel parameter for termination; the engine supplies
    fuel that is never exhausted on the inputs considered.
  - Character classes follow the regexes of the source for the ASCII
    range: `/\s/`, `/[a-zA-Z_]/`, `/\w/`.
-/

/-- Token kinds of the lexer (`TokenType` in `token-types`). -/
inductive TokenType where
  | OPEN_TEMPLATE
  | CLOSE_TEMPLATE
  | PIPE
  | QUESTION
  | COLON
  | OR
  | STRING
  | IDENTIFIER
  | TEXT
deriving Repr, DecidableEq

/-- The name of a token kind as interpolated into error messages. -/
def TokenType.str : TokenType → String
  | .OPEN_TEMPLATE => "OPEN_TEMPLATE"
  | .CLOSE_TEMPLATE => "CLOSE_TEMPLATE"
  | .PIPE => "PIPE"
  | .QUESTION => "QUESTION"
  | .COLON => "COLON"
  | .OR => "OR"
  | .STRING => "STRING"
  | .IDENTIFIER => "IDENTIFIER"
  | .TEXT => "TEXT"

/-- A token: `{type, value}` (interface `Token`). -/
structure Token where
  type : TokenType
  value : String
deriving Repr, DecidableEq

def openBrace : Char := '\x7b'

def closeBrace : Char := '\x7d'

/-- Whitespace as matched by the `/\s/` test in `tokenize` (ASCII range). -/
def isJsWhitespace (c : Char) : Bool :=
  c == ' ' || c == '\t' || c == '\n' || c == '\r' || c == '\x0b' || c == '\x0c'

/-- Identifier start: the `/[a-zA-Z_]/` test in `tokenize`. -/
def isIdentStart (c : Char) : Bool :=
  c.isAlpha || c == '_'

/-- Word character: the `/\w/` test in `tokenize`. -/
def isWordChar (c : Char) : Bool :=
  c.isAlphanum || c == '_'

/-- The string-literal scan of `tokenize`: collect characters up to the
closing quote `q`, a backslash escaping the following character verbatim;
an unterminated literal is absorbed up to end of input. Returns the
collected string and the input remaining after the closing quote. -/
def scanString (q : Char) : List Char → String × List Char
  | [] => ("", [])
  | c :: rest =>
      if c = '\\' then
        match rest with
        | [] => ("", [])
        | d :: rest2 =>
            let (s, r) := scanString q rest2
            (d.toString ++ s, r)
      else if c = q then ("", rest)
      else
        let (s, r) := scanString q rest
        (c.toString ++ s, r)

/-- The identifier scan of `tokenize`: collect the longest run of `/\w/`
characters. -/
def takeWord : List Char → String × List Char
  | [] => ("", [])
  | c :: rest =>
      if isWordChar c then
        let (s, r) := takeWord rest
        (c.toString ++ s, r)
      else ("", c :: rest)

/-- The text scan of `tokenize` outside templates: collect characters up
to (not including) the next `\x7b\x7b`. -/
def takeText : List Char → String × List Char
  | [] => ("", [])
  | c :: rest =>
      if c = openBrace ∧ rest.head? = some openBrace then ("", c :: rest)
      else
        let (s, r) := takeText rest
        (c.toString ++ s, r)

/-- One pass of `TemplateParser.tokenize`, fuelled (the loop consumes at
least one character per iteration, so `input.length + 1` fuel suffices).
The boolean is the `insideTemplate` mode bit. -/
def tokenizeAux : Nat → List Char → Bool → List Token
  | 0, _, _ => []
  | _ + 1, [], _ => []
  | fuel + 1, c :: rest, inside =>
      if c = openBrace ∧ rest.head? = some openBrace then
        ⟨.OPEN_TEMPLATE, "\x7b\x7b"⟩ :: tokenizeAux fuel rest.tail true
      else if c = closeBrace ∧ rest.head? = some closeBrace then
        ⟨.CLOSE_TEMPLATE, "\x7d\x7d"⟩ :: tokenizeAux fuel rest.tail false
      else if inside then
        if isJsWhitespace c then tokenizeAux fuel rest true
        else if c = '|' then ⟨.PIPE, "|"⟩ :: tokenizeAux fuel rest true
        else if c = '?' then ⟨.QUESTION, "?"⟩ :: tokenizeAux fuel rest true
        else if c = ':' then ⟨.COLON, ":"⟩ :: tokenizeAux fuel rest true
        else if c = '\x27' ∨ c = '\x22' then
          let (s, r) := scanString c rest
          ⟨.STRING, s⟩ :: tokenizeAux fuel r true
        else if isIdentStart c then
          let (s, r) := takeWord rest
          let ident := c.toString ++ s
          (if ident = "or" then Token.mk .OR ident else Token.mk .IDENTIFIER ident)
            :: tokenizeAux fuel r true
        else tokenizeAux fuel rest true
      else
        let (s, r) := takeText rest
        ⟨.TEXT, c.toString ++ s⟩ :: tokenizeAux fuel r false

/-- `TemplateParser.tokenize`: lex a whole template. Starts outside
template mode. Total: never raises. -/
def tokenize (input : String) : List Token :=
  tokenizeAux (input.data.length + 1) input.data false

/-- Expression AST (`ExpressionNode` in `ast-types`): `VariableNode`,
`StringNode`, `PipeNode` (with its `FilterNode` name and args inlined),
`TernaryNode`, `OrNode`. -/
inductive Expr where
  | var (name : String)
  | strLit (value : String)
  | pipe (left : Expr) (filterName : String) (filterArgs : List Expr)
  | ternary (cond tru fls : Expr)
  | orE (left right : Expr)
deriving Repr

/-- Top-level AST node (`ASTNode` in `ast-types`): `TextNode` or
`TemplateNode`. -/
inductive ASTNode where
  | text (value : String)
  | template (expression : Expr)
deriving Repr

/-- `TemplateParser.expect`: consume a token of kind `t` or raise
`Expected <t> but got <kind or EOF>`. -/
def expectTok (t : TokenType) : List Token → Except String (Token × List Token)
  | tok :: rest =>
      if tok.type = t then .ok (tok, rest)
      else .error ("Expected " ++ t.str ++ " but got " ++ tok.type.str)
  | [] => .error ("Expected " ++ t.str ++ " but got EOF")

/-- `TemplateParser.parsePrimary`: an IDENTIFIER token becomes a
variable, a STRING token a string literal; anything else raises
`Unexpected token: <kind or EOF>`. -/
def parsePrimary : List Token → Except String (Expr × List Token)
  | tok :: rest =>
      match tok.type with
      | .IDENTIFIER => .ok (.var tok.value, rest)
      | .STRING => .ok (.strLit tok.value, rest)
      | _ => .error ("Unexpected token: " ++ tok.type.str)
  | [] => .error "Unexpected token: EOF"

/-- The token kinds at which `parseFilter` stops collecting arguments. -/
def isArgDelimiter : TokenType → Bool
  | .PIPE => true
  | .QUESTION => true
  | .COLON => true
  | .OR => true
  | .CLOSE_TEMPLATE => true
  | _ => false

def fuelMsg : String := "parser fuel exhausted"

mutual

/-- `TemplateParser.parseExpression`. -/
def parseExpression : Nat → List Token → Except String (Expr × List Token)
  | 0, _ => .error fuelMsg
  | fuel + 1, toks => parseTernary fuel toks

/-- `TemplateParser.parseTernary`: parse an or-level expression; on a
QUESTION, recursively parse the two branches around an expected COLON. -/
def parseTernary : Nat → List Token → Except String (Expr × List Token)
  | 0, _ => .error fuelMsg
  | fuel + 1, toks => do
      let (left, t1) ← parseOr fuel toks
      match t1 with
      | tok :: t2 =>
          if tok.type = .QUESTION then do
            let (tExpr, t3) ← parseExpression fuel t2
            let (_, t4) ← expectTok .COLON t3
            let (fExpr, t5) ← parseExpression fuel t4
            pure (.ternary left tExpr fExpr, t5)
          else pure (left, tok :: t2)
      | [] => pure (left, [])

/-- `TemplateParser.parseOr`: left-associative fold over OR tokens. -/
def parseOr : Nat → List Token → Except String (Expr × List Token)
  | 0, _ => .error fuelMsg
  | fuel + 1, toks => do
      let (left, t1) ← parsePipeline fuel toks
      parseOrRest fuel left t1

/-- The `while (this.match('OR'))` loop of `parseOr`. -/
def parseOrRest : Nat → Expr → List Token → Except String (Expr × List Token)
  | 0, _, _ => .error fuelMsg
  | fuel + 1, left, toks =>
      match toks with
      | tok :: t1 =>
          if tok.type = .OR then do
            let (right, t2) ← parsePipeline fuel t1
            parseOrRest fuel (.orE left right) t2
          else pure (left, tok :: t1)
      | [] => pure (left, [])

/-- `TemplateParser.parsePipeline`: left-associative fold over PIPE
tokens. -/
def parsePipeline : Nat → List Token → Except String (Expr × List Token)
  | 0, _ => .error fuelMsg
  | fuel + 1, toks => do
      let (left, t1) ← parsePrimary toks
      parsePipeRest fuel left t1

/-- The `while (this.match('PIPE'))` loop of `parsePipeline`. -/
def parsePipeRest : Nat → Expr → List Token → Except String (Expr × List Token)
  | 0, _, _ => .error fuelMsg
  | fuel + 1, left, toks =>
      match toks with
      | tok :: t1 =>
          if tok.type = .PIPE then do
            let (nameArgs, t2) ← parseFilter fuel t1
            parsePipeRest fuel (.pipe left nameArgs.1 nameArgs.2) t2
          else pure (left, tok :: t1)
      | [] => pure (left, [])

/-- `TemplateParser.parseFilter`: an expected IDENTIFIER naming the
filter, then greedily collected primary arguments. -/
def parseFilter : Nat → List Token → Except String ((String × List Expr) × List Token)
  | 0, _ => .error fuelMsg
  | fuel + 1, toks => do
      let (tok, t1) ← expectTok .IDENTIFIER toks
      let (args, t2) ← parseFilterArgs fuel t1
      pure ((tok.value, args), t2)

/-- The argument loop of `parseFilter`: collect primaries until a
delimiter token or end of stream. -/
def parseFilterArgs : Nat → List Token → Except String (List Expr × List Token)
  | 0, _ => .error fuelMsg
  | fuel + 1, toks =>
      match toks with
      | [] => pure ([], [])
      | tok :: rest =>
          if isArgDelimiter tok.type then pure ([], tok :: rest)
          else do
            let (arg, t1) ← parsePrimary (tok :: rest)
            let (args, t2) ← parseFilterArgs fuel t1
            pure (arg :: args, t2)

end

/-- `TemplateParser.parse`: the top-level loop. A TEXT token becomes a
text node; an OPEN_TEMPLATE starts a template parse (`parseTemplate`:
expect OPEN_TEMPLATE, one expression, expect CLOSE_TEMPLATE); any other
token is silently skipped. -/
def parseNodes : Nat → List Token → Except String (List ASTNode)
  | 0, _ => .error fuelMsg
  | _ + 1, [] => pure []
  | fuel + 1, tok :: rest =>
      match tok.type with
      | .TEXT => do
          let ns ← parseNodes fuel rest
          pure (.text tok.value :: ns)
      | .OPEN_TEMPLATE => do
          let (e, t1) ← parseExpression fuel rest
          let (_, t2) ← expectTok .CLOSE_TEMPLATE t1
          let ns ← parseNodes fuel t2
          pure (.template e :: ns)
      | _ => parseNodes fuel rest

/-- Fuel supplied to the parser; ample for the token stream at hand. -/
def parseFuel (toks : List Token) : Nat :=
  10 * toks.length + 10

/-- `new TemplateParser(input).parse()`: tokenize, then parse. -/
def parseTemplateString (input : String) : Except String (List ASTNode) :=
  let toks := tokenize input
  parseNodes (parseFuel toks) toks

/-- The two error species of the engine: parse errors raised by
`TemplateParser`, evaluation errors raised by `TemplateEngine`. -/
inductive RenderError where
  | parseErr (msg : String)
  | evalErr (msg : String)
deriving Repr, DecidableEq

/-- Dynamically-typed context values. -/
inductive Value where
  | vStr (s : String)
  | vNum (n : Int)
  | vBool (b : Bool)
  | vNull
  | vUndef
deriving Repr, DecidableEq

/-- JavaScript truthiness of a `Value`. -/
def truthy : Value → Bool
  | .vStr s => s != ""
  | .vNum n => n != 0
  | .vBool b => b
  | .vNull => false
  | .vUndef => false

/-- `String(v)`: the JavaScript string conversion applied at the
`Template` node boundary. -/
def jsToString : Value → String
  | .vStr s => s
  | .vNum n => toString n
  | .vBool b => if b then "true" else "false"
  | .vNull => "null"
  | .vUndef => "undefined"

abbrev Ctx := List (String × Value)

abbrev FilterFn := Value → List Value → Value

abbrev Registry := String → Option FilterFn

/-- `toLowerCase` on the characters of a string (ASCII range). -/
def jsLower (s : String) : String := ⟨s.data.map Char.toLower⟩

/-- `toUpperCase` on the characters of a string (ASCII range). -/
def jsUpper (s : String) : String := ⟨s.data.map Char.toUpper⟩

/-- Built-in filter `lower`. -/
def lowerFilter : FilterFn := fun v _ => .vStr (jsLower (jsToString v))

/-- Built-in filter `upper`. -/
def upperFilter : FilterFn := fun v _ => .vStr (jsUpper (jsToString v))

/-- Built-in filter `capitalize`: uppercase the first character,
lowercase the rest (`charAt(0).toUpperCase() + slice(1).toLowerCase()`). -/
def capitalizeFilter : FilterFn := fun v _ =>
  match (jsToString v).data with
  | [] => .vStr ""
  | c :: rest => .vStr ⟨c.toUpper :: rest.map Char.toLower⟩

/-- Built-in filter `includes`: substring membership of the stringified
argument in the stringified value (a missing argument stringifies as
`undefined`, as in JavaScript). -/
def includesFilter : FilterFn := fun v args =>
  let search := match args with
    | a :: _ => jsToString a
    | [] => "undefined"
  .vBool (decide (List.IsInfix search.data (jsToString v).data))

/-- The filter registry seeded in the `TemplateEngine` constructor. -/
def defaultFilters : Registry := fun name =>
  if name = "lower" then some lowerFilter
  else if name = "upper" then some upperFilter
  else if name = "capitalize" then some capitalizeFilter
  else if name = "includes" then some includesFilter
  else none

mutual

/-- `TemplateEngine.evaluateExpression` together with
`TemplateEngine.applyFilter`: a variable is `context[name] || ""` (absent
or falsy values coerce to the empty string); a pipe evaluates its left
operand, resolves the filter (raising `Unknown filter: <name>` when
unregistered, before evaluating the arguments), evaluates the arguments
and applies the filter; ternary and or evaluate their condition or left
operand and short-circuit. -/
def evaluateExpression (reg : Registry) (ctx : Ctx) : Expr → Except String Value
  | .var name =>
      .ok (match ctx.lookup name with
           | some v => if truthy v then v else .vStr ""
           | none => .vStr "")
  | .strLit v => .ok (.vStr v)
  | .pipe left fname fargs =>
      match evaluateExpression reg ctx left with
      | .error e => .error e
      | .ok v =>
        match reg fname with
        | none => .error ("Unknown filter: " ++ fname)
        | some fn =>
            match evalArgs reg ctx fargs with
            | .error e => .error e
            | .ok args => .ok (fn v args)
  | .ternary c t f =>
      match evaluateExpression reg ctx c with
      | .error e => .error e
      | .ok cv =>
          if truthy cv then evaluateExpression reg ctx t
          else evaluateExpression reg ctx f
  | .orE l r =>
      match evaluateExpression reg ctx l with
      | .error e => .error e
      | .ok lv => if truthy lv then .ok lv else evaluateExpression reg ctx r

/-- Evaluation of the filter-argument list, left to right, first error
wins (the `filter.args.map(...)` of `applyFilter`). -/
def evalArgs (reg : Registry) (ctx : Ctx) : List Expr → Except String (List Value)
  | [] => .ok []
  | e :: es =>
      match evaluateExpression reg ctx e with
      | .error err => .error err
      | .ok v =>
          match evalArgs reg ctx es with
          | .error err => .error err
          | .ok vs => .ok (v :: vs)

end

/-- `TemplateEngine.evaluateNode`: text passes through; a template node
evaluates its expression and stringifies the value. -/
def evaluateNode (reg : Registry) (ctx : Ctx) : ASTNode → Except String String
  | .text v => .ok v
  | .template e =>
      match evaluateExpression reg ctx e with
      | .error err => .error err
      | .ok v => .ok (jsToString v)

/-- Node-by-node evaluation of the AST sequence, left to right, first
error aborting the whole pass (`ast.map(...)` with a thrown error). -/
def evalNodes (reg : Registry) (ctx : Ctx) : List ASTNode → Except String (List String)
  | [] => .ok []
  | n :: rest =>
      match evaluateNode reg ctx n with
      | .error err => .error err
      | .ok s =>
          match evalNodes reg ctx rest with
          | .error err => .error err
          | .ok ss => .ok (s :: ss)

/-- `TemplateEngine.evaluate`: render every node and join with no
separator. -/
def evaluate (reg : Registry) (ast : List ASTNode) (ctx : Ctx) : Except String String :=
  match evalNodes reg ctx ast with
  | .error err => .error err
  | .ok parts => .ok (String.join parts)

/-- A fresh engine's `compile` without the cache: parse the source. -/
def compileFn (input : String) : Except RenderError (List ASTNode) :=
  match parseTemplateString input with
  | .ok ast => .ok ast
  | .error m => .error (.parseErr m)

/-- `TemplateEngine.render` on a fresh engine: compile, then evaluate
under the default filter registry. -/
def render (input : String) (ctx : Ctx) : Except RenderError String :=
  match compileFn input with
  | .error e => .error e
  | .ok ast =>
      match evaluate defaultFilters ast ctx with
      | .ok s => .ok s
      | .error m => .error (.evalErr m)

/-- The mutable part of `TemplateEngine` relevant to `compile`: the
`astCache` map from source text to compiled AST. -/
structure Engine where
  astCache : List (String × List ASTNode)

/-- A fresh engine: empty cache. -/
def Engine.init : Engine := ⟨[]⟩

/-- Result of a stateful `compile` call, instrumented with whether the
lexer/parser was invoked (false on a cache hit). -/
structure CompileResult where
  result : Except RenderError (List ASTNode)
  engine : Engine
  parserInvoked : Bool

/-- `TemplateEngine.compile`: return the cached AST when the exact source
string is a key of `astCache`; otherwise parse and, on success, cache
under the source string (a throwing parse caches nothing). -/
def compileSt (e : Engine) (input : String) : CompileResult :=
  match e.astCache.lookup input with
  | some ast => ⟨.ok ast, e, false⟩
  | none =>
      match compileFn input with
      | .ok ast => ⟨.ok ast, ⟨(input, ast) :: e.astCache⟩, true⟩
      | .error err => ⟨.error err, e, true⟩

/-! ## Helper lemmas -/

theorem join_singleton (s : String) : String.join [s] = s := by
  show "" ++ s = s
  cases s
  rfl

theorem char_toString_append (c : Char) (l : List Char) :
    c.toString ++ (⟨l⟩ : String) = ⟨c :: l⟩ := rfl

theorem tokenizeAux_nil (fuel : Nat) (inside : Bool) :
    tokenizeAux fuel [] inside = [] := by
  cases fuel <;> rfl

/-- Does the character list contain the two-character marker opening a
template anywhere? -/
def hasOpenMarker : List Char → Bool
  | [] => false
  | c :: rest => (c == openBrace && rest.head? == some openBrace) || hasOpenMarker rest

/-- Does the character list begin with the two-character marker closing a
template? -/
def startsCloseMarker : List Char → Bool
  | [] => false
  | c :: rest => c == closeBrace && rest.head? == some closeBrace

theorem takeText_all (l : List Char) (h : hasOpenMarker l = false) :
    takeText l = (⟨l⟩, []) := by
  induction l with
  | nil => rfl
  | cons c rest ih =>
      rw [hasOpenMarker] at h
      simp only [Bool.or_eq_false_iff, Bool.and_eq_false_iff] at h
      obtain ⟨h1, h2⟩ := h
      have hno : ¬(c = openBrace ∧ rest.head? = some openBrace) := by
        rintro ⟨hc, hh⟩
        rcases h1 with h1 | h1
        · rw [hc] at h1; simp at h1
        · rw [hh] at h1; simp at h1
      rw [takeText, if_neg hno, ih h2]
      rfl

theorem parseNodes_single_text (s : String) (fuel : Nat) :
    parseNodes (fuel + 2) [⟨.TEXT, s⟩] = .ok [.text s] := by
  rw [parseNodes]
  rfl

theorem evaluate_single_text (reg : Registry) (ctx : Ctx) (s : String) :
    evaluate reg [.text s] ctx = .ok s := by
  have h : evaluate reg [.text s] ctx = .ok (String.join [s]) := rfl
  rw [h, join_singleton]

/-- C2 fails as stated: `\x7d\x7d` contains no `\x7b\x7b`, yet a leading
close marker is lexed as a CLOSE_TEMPLATE token, which the parser
silently discards, so the rendered output is empty rather than the
template text. -/
theorem C2_counterexample :
    render "\x7d\x7d" [] = .ok "" ∧ ("" : String) ≠ "\x7d\x7d" := by
  exact ⟨rfl, by decide⟩

/-- C2 amended: for every template `t` that contains no occurrence of
`\x7b\x7b` and does not begin with the two-character close marker
`\x7d\x7d`, and every context, `render t ctx` returns `t` unchanged. -/
theorem C2_text_passthrough :
    ∀ (t : String) (ctx : Ctx),
      hasOpenMarker t.data = false → startsCloseMarker t.data = false →
      render t ctx = .ok t := by
  intro t ctx hm hc
  obtain ⟨l⟩ := t
  cases l with
  | nil => rfl
  | cons c rest =>
      dsimp only at hm hc
      rw [hasOpenMarker] at hm
      simp only [Bool.or_eq_false_iff, Bool.and_eq_false_iff] at hm
      obtain ⟨hm1, hm2⟩ := hm
      rw [startsCloseMarker] at hc
      simp only [Bool.and_eq_false_iff] at hc
      have hno : ¬(c = openBrace ∧ rest.head? = some openBrace) := by
        rintro ⟨h1, h2⟩
        rcases hm1 with h | h
        · rw [h1] at h; simp at h
        · rw [h2] at h; simp at h
      have hncl : ¬(c = closeBrace ∧ rest.head? = some closeBrace) := by
        rintro ⟨h1, h2⟩
        rcases hc with h | h
        · rw [h1] at h; simp at h
        · rw [h2] at h; simp at h
      have htok : tokenize ⟨c :: rest⟩ = [⟨.TEXT, ⟨c :: rest⟩⟩] := by
        show tokenizeAux (rest.length + 1 + 1) (c :: rest) false = _
        rw [tokenizeAux, if_neg hno, if_neg hncl, if_neg (by simp : ¬(false = true)),
          takeText_all rest hm2]
        rfl
      have hpar : parseTemplateString ⟨c :: rest⟩ = .ok [.text ⟨c :: rest⟩] := by
        unfold parseTemplateString
        rw [htok]
        exact parseNodes_single_text _ 18
      have hcomp : compileFn ⟨c :: rest⟩ = .ok [.text ⟨c :: rest⟩] := by
        unfold compileFn
        rw [hpar]
      unfold render
      rw [hcomp]
      dsimp only
      rw [evaluate_single_text]

/-- C2 witness: a concrete plain-text template passes through unchanged. -/
theorem C2_text_passthrough_witness :
    render "Hello World" [] = .ok "Hello World" :=
  C2_text_passthrough "Hello World" [] rfl rfl

theorem render_var_x (ctx : Ctx) :
    render "\x7b\x7b x \x7d\x7d" ctx =
      .ok (jsToString (match ctx.lookup "x" with
        | some v => if truthy v then v else .vStr ""
        | none => .vStr "")) := by
  have hcomp : compileFn "\x7b\x7b x \x7d\x7d" = .ok [.template (.var "x")] := rfl
  unfold render
  rw [hcomp]
  dsimp only
  have hev : evaluate defaultFilters [.template (.var "x")] ctx =
      .ok (String.join [jsToString (match ctx.lookup "x" with
        | some v => if truthy v then v else .vStr ""
        | none => .vStr "")]) := rfl
  rw [hev, join_singleton]

/-- C1 fails as stated: `x` bound to the boolean `false` is a
stringifiable value whose string form is `false`, yet the render yields
the empty string, because the variable lookup coerces falsy values to
the empty string. -/
theorem C1_counterexample :
    render "\x7b\x7b x \x7d\x7d" [("x", Value.vBool false)] = .ok "" ∧
    ("" : String) ≠ "false" :=
  ⟨rfl, by decide⟩

/-- C1 amended: `render` of a single variable placeholder returns the
string form of the bound value when that value is truthy, and the empty
string when the value is falsy (`0`, `false`, empty string,
null/undefined) or when the variable is absent from the context. -/
theorem C1_render_variable :
    (∀ v : Value, render "\x7b\x7b x \x7d\x7d" [("x", v)] =
      .ok (if truthy v then jsToString v else "")) ∧
    render "\x7b\x7b x \x7d\x7d" [] = .ok "" := by
  constructor
  · intro v
    rw [render_var_x]
    have hl : List.lookup "x" [("x", v)] = some v := by simp [List.lookup]
    rw [hl]
    cases htv : truthy v <;> simp [htv, jsToString]
  · rfl

/-- C5: the three parse failures are deterministic with the stated
messages (`Expected CLOSE_TEMPLATE`, `Expected COLON`, `Unexpected
token`), and a failing compile never also returns an AST. -/
theorem C5_parse_errors :
    compileFn "\x7b\x7b name" =
      .error (.parseErr "Expected CLOSE_TEMPLATE but got EOF") ∧
    compileFn "\x7b\x7b cond ? \x27a\x27 \x7d\x7d" =
      .error (.parseErr "Expected COLON but got CLOSE_TEMPLATE") ∧
    compileFn "\x7b\x7b 123 \x7d\x7d" =
      .error (.parseErr "Unexpected token: CLOSE_TEMPLATE") ∧
    (∀ (t : String) (err : RenderError) (ast : List ASTNode),
      compileFn t = .error err → compileFn t ≠ .ok ast) := by
  refine ⟨rfl, rfl, rfl, ?_⟩
  intro t err ast h hok
  rw [h] at hok
  exact absurd hok (by simp)

/-- C5 witness: the failing compile of an unterminated template returns
no AST. -/
theorem C5_parse_errors_witness :
    compileFn "\x7b\x7b name" ≠ .ok [] :=
  C5_parse_errors.2.2.2 "\x7b\x7b name"
    (.parseErr "Expected CLOSE_TEMPLATE but got EOF") [] C5_parse_errors.1

/-- C6: exactly the empty string, `false`, null/undefined (the model of
absent), and `0` are falsy; every other value is truthy; and the three
stated ternary renders behave accordingly. -/
theorem C6_ternary_truthiness :
    (∀ v : Value, truthy v = false ↔
      v = .vStr "" ∨ v = .vBool false ∨ v = .vNull ∨ v = .vUndef ∨ v = .vNum 0) ∧
    render "\x7b\x7b c ? \x27y\x27 : \x27n\x27 \x7d\x7d" [("c", .vStr "")] = .ok "n" ∧
    render "\x7b\x7b c ? \x27y\x27 : \x27n\x27 \x7d\x7d" [("c", .vNum 0)] = .ok "n" ∧
    render "\x7b\x7b c ? \x27y\x27 : \x27n\x27 \x7d\x7d" [("c", .vStr "x")] = .ok "y" := by
  refine ⟨?_, rfl, rfl, rfl⟩
  intro v
  cases v <;> simp [truthy]

/-- C7: `a or b or c` parses left-associatively as `Or(Or(a,b),c)`;
rendering with only `b` set yields its value; with nothing set and a
string-literal fallback the literal is returned; and in general an Or
node returns its left value exactly when truthy, otherwise the value of
the right operand. -/
theorem C7_or_fallback :
    parseTemplateString "\x7b\x7b a or b or c \x7d\x7d" =
      .ok [.template (.orE (.orE (.var "a") (.var "b")) (.var "c"))] ∧
    render "\x7b\x7b a or b or c \x7d\x7d" [("b", .vStr "S")] = .ok "S" ∧
    render "\x7b\x7b a or b or \x27L\x27 \x7d\x7d" [] = .ok "L" ∧
    (∀ (reg : Registry) (ctx : Ctx) (l r : Expr) (v : Value),
      evaluateExpression reg ctx l = .ok v →
      evaluateExpression reg ctx (.orE l r) =
        (if truthy v then .ok v else evaluateExpression reg ctx r)) := by
  refine ⟨rfl, rfl, rfl, ?_⟩
  intro reg ctx l r v h
  simp [evaluateExpression, h]

/-- C7 witness: a concrete Or whose left operand is truthy. -/
theorem C7_or_fallback_witness :
    evaluateExpression defaultFilters [("a", Value.vStr "A")] (.orE (.var "a") (.var "b")) =
      (if truthy (Value.vStr "A") then .ok (Value.vStr "A")
       else evaluateExpression defaultFilters [("a", Value.vStr "A")] (.var "b")) :=
  C7_or_fallback.2.2.2 defaultFilters [("a", Value.vStr "A")] (.var "a") (.var "b")
    (Value.vStr "A") rfl

/-- C8: ternary evaluation equals the evaluation of exactly the taken
branch, whatever the other branch is (so an unregistered filter in the
untaken branch cannot raise), Or does not evaluate its right operand
when the left is truthy, and the stated render with an unknown filter in
the dead branch succeeds. -/
theorem C8_short_circuit :
    (∀ (reg : Registry) (ctx : Ctx) (c t f : Expr) (v : Value),
      evaluateExpression reg ctx c = .ok v → truthy v = true →
      evaluateExpression reg ctx (.ternary c t f) = evaluateExpression reg ctx t) ∧
    (∀ (reg : Registry) (ctx : Ctx) (c t f : Expr) (v : Value),
      evaluateExpression reg ctx c = .ok v → truthy v = false →
      evaluateExpression reg ctx (.ternary c t f) = evaluateExpression reg ctx f) ∧
    (∀ (reg : Registry) (ctx : Ctx) (l r : Expr) (v : Value),
      evaluateExpression reg ctx l = .ok v → truthy v = true →
      evaluateExpression reg ctx (.orE l r) = .ok v) ∧
    render "\x7b\x7b c ? \x27y\x27 : x | nope \x7d\x7d" [("c", .vStr "t")] = .ok "y" := by
  refine ⟨?_, ?_, ?_, rfl⟩
  · intro reg ctx c t f v h ht
    simp [evaluateExpression, h, ht]
  · intro reg ctx c t f v h ht
    simp [evaluateExpression, h, ht]
  · intro reg ctx l r v h ht
    simp [evaluateExpression, h, ht]

/-- C8 witness: the taken branch determines the result even when the
untaken branch pipes through an unregistered filter. -/
theorem C8_short_circuit_witness :
    evaluateExpression defaultFilters [("c", Value.vStr "t")]
        (.ternary (.var "c") (.strLit "y") (.pipe (.var "x") "nope" [])) =
      evaluateExpression defaultFilters [("c", Value.vStr "t")] (.strLit "y") :=
  C8_short_circuit.1 defaultFilters [("c", Value.vStr "t")] (.var "c") (.strLit "y")
    (.pipe (.var "x") "nope" []) (Value.vStr "t") rfl rfl

/-- C10: the variable lookup `context[name] || ""` coerces every
present-but-falsy binding to the empty string, so such bindings render,
or-fall-back, and branch exactly like absent variables. -/
theorem C10_falsy_lookup :
    (∀ (reg : Registry) (ctx : Ctx) (name : String) (v : Value),
      ctx.lookup name = some v → truthy v = false →
      evaluateExpression reg ctx (.var name) = .ok (.vStr "")) ∧
    render "\x7b\x7b x \x7d\x7d" [("x", .vNum 0)] = .ok "" ∧
    render "\x7b\x7b x \x7d\x7d" [("x", .vBool false)] = .ok "" ∧
    render "\x7b\x7b x \x7d\x7d" [] = .ok "" ∧
    render "\x7b\x7b x or \x27F\x27 \x7d\x7d" [("x", .vNum 0)] = .ok "F" ∧
    render "\x7b\x7b x or \x27F\x27 \x7d\x7d" [] = .ok "F" ∧
    render "\x7b\x7b x ? \x27y\x27 : \x27n\x27 \x7d\x7d" [("x", .vNum 0)] = .ok "n" ∧
    render "\x7b\x7b x ? \x27y\x27 : \x27n\x27 \x7d\x7d" [] = .ok "n" := by
  refine ⟨?_, rfl, rfl, rfl, rfl, rfl, rfl, rfl⟩
  intro reg ctx name v h ht
  simp [evaluateExpression, h, ht]

/-- C10 witness: a present zero renders as the empty string. -/
theorem C10_falsy_lookup_witness :
    evaluateExpression defaultFilters [("x", Value.vNum 0)] (.var "x") = .ok (.vStr "") :=
  C10_falsy_lookup.1 defaultFilters [("x", Value.vNum 0)] "x" (Value.vNum 0) rfl rfl

/-- C9: a successful compile makes the next compile of the same exact
source return the same AST from the cache without invoking the parser;
and the cache key is the exact source text, so compiling a second,
different string always invokes the parser even on a warm engine. -/
theorem C9_compile_cache :
    (∀ (e : Engine) (t : String) (ast : List ASTNode),
      (compileSt e t).result = .ok ast →
      (compileSt (compileSt e t).engine t).result = .ok ast ∧
      (compileSt (compileSt e t).engine t).parserInvoked = false) ∧
    (∀ t1 t2 : String, t1 ≠ t2 →
      (compileSt (compileSt Engine.init t1).engine t2).parserInvoked = true) := by
  have hit : ∀ (e : Engine) (t : String) (ast : List ASTNode),
      e.astCache.lookup t = some ast → compileSt e t = ⟨.ok ast, e, false⟩ := by
    intro e t ast h
    unfold compileSt
    rw [h]
  have missOk : ∀ (e : Engine) (t : String) (a : List ASTNode),
      e.astCache.lookup t = none → compileFn t = .ok a →
      compileSt e t = ⟨.ok a, ⟨(t, a) :: e.astCache⟩, true⟩ := by
    intro e t a h hp
    unfold compileSt
    rw [h, hp]
  have missErr : ∀ (e : Engine) (t : String) (err : RenderError),
      e.astCache.lookup t = none → compileFn t = .error err →
      compileSt e t = ⟨.error err, e, true⟩ := by
    intro e t err h hp
    unfold compileSt
    rw [h, hp]
  constructor
  · intro e t ast h
    cases hl : e.astCache.lookup t with
    | some ast0 =>
        rw [hit e t ast0 hl] at h ⊢
        simp only [Except.ok.injEq] at h
        subst h
        rw [hit e t ast0 hl]
        exact ⟨rfl, rfl⟩
    | none =>
        cases hp : compileFn t with
        | ok a =>
            rw [missOk e t a hl hp] at h ⊢
            simp only [Except.ok.injEq] at h
            subst h
            have hl2 : List.lookup t ((t, a) :: e.astCache) = some a := by
              simp [List.lookup]
            rw [hit _ t a hl2]
            exact ⟨rfl, rfl⟩
        | error err =>
            rw [missErr e t err hl hp] at h
            exact absurd h (by simp)
  · intro t1 t2 hne
    have hl1 : (Engine.init).astCache.lookup t1 = none := rfl
    have hfresh : ∀ en : Engine, en.astCache.lookup t2 = none →
        (compileSt en t2).parserInvoked = true := by
      intro en hl2
      cases hq : compileFn t2 with
      | ok a => rw [missOk en t2 a hl2 hq]
      | error err => rw [missErr en t2 err hl2 hq]
    cases hp : compileFn t1 with
    | ok a =>
        rw [missOk Engine.init t1 a hl1 hp]
        refine hfresh _ ?_
        simp [List.lookup, Engine.init, beq_eq_false_iff_ne.mpr (Ne.symm hne)]
    | error err =>
        rw [missErr Engine.init t1 err hl1 hp]
        exact hfresh _ rfl

/-- C9 witness: compiling `x` twice hits the cache; compiling `a` then
`b` parses both. -/
theorem C9_compile_cache_witness :
    ((compileSt (compileSt Engine.init "x").engine "x").result = .ok [ASTNode.text "x"] ∧
     (compileSt (compileSt Engine.init "x").engine "x").parserInvoked = false) ∧
    (compileSt (compileSt Engine.init "a").engine "b").parserInvoked = true :=
  ⟨C9_compile_cache.1 Engine.init "x" [ASTNode.text "x"] rfl,
   C9_compile_cache.2 "a" "b" (by decide)⟩

/-- C3 fails as stated: `\x7b\x7b @ \x7d\x7d` has a placeholder whose only
content is a character that is neither whitespace, an operator, a quote,
nor an identifier character; the lexer skips it silently, but the
emptied placeholder then makes compile (and hence render) raise a
ParseError instead of absorbing the irregularity. -/
theorem C3_counterexample :
    compileFn "\x7b\x7b @ \x7d\x7d" =
      .error (.parseErr "Unexpected token: CLOSE_TEMPLATE") ∧
    render "\x7b\x7b @ \x7d\x7d" [] =
      .error (.parseErr "Unexpected token: CLOSE_TEMPLATE") :=
  ⟨rfl, rfl⟩

/-- C3 amended: the lexer itself absorbs the irregularities silently —
a character inside a placeholder that is not whitespace, `|`, `?`, `:`,
a quote, an identifier start, or part of a brace marker is skipped with
no effect on the token stream, and an unterminated string literal is
consumed to end of input without a lexer error (it absorbs even a
closing `\x7d\x7d`) — so rendering succeeds when the remaining
placeholder content is still grammatical (e.g. `\x7b\x7b a@ \x7d\x7d`);
but compile and render can still fail with a ParseError when the
absorption leaves the placeholder ungrammatical. -/
theorem C3_lexer_leniency :
    (∀ (fuel : Nat) (c : Char) (rest : List Char),
      ¬(c = openBrace ∧ rest.head? = some openBrace) →
      ¬(c = closeBrace ∧ rest.head? = some closeBrace) →
      isJsWhitespace c = false → ¬(c = '|') → ¬(c = '?') → ¬(c = ':') →
      ¬(c = '\x27' ∨ c = '\x22') → isIdentStart c = false →
      tokenizeAux (fuel + 1) (c :: rest) true = tokenizeAux fuel rest true) ∧
    (∀ q : Char, scanString q [] = ("", [])) ∧
    tokenize "\x7b\x7b \x22abc" = [⟨.OPEN_TEMPLATE, "\x7b\x7b"⟩, ⟨.STRING, "abc"⟩] ∧
    tokenize "\x7b\x7b \x22abc \x7d\x7d" = [⟨.OPEN_TEMPLATE, "\x7b\x7b"⟩, ⟨.STRING, "abc \x7d\x7d"⟩] ∧
    render "\x7b\x7b a@ \x7d\x7d" [("a", .vStr "A")] = .ok "A" ∧
    compileFn "\x7b\x7b \x22abc \x7d\x7d" =
      .error (.parseErr "Expected CLOSE_TEMPLATE but got EOF") := by
  refine ⟨?_, fun q => rfl, rfl, rfl, rfl, rfl⟩
  intro fuel c rest hno hncl hws hp hq hcol hquote hid
  rw [tokenizeAux, if_neg hno, if_neg hncl, if_pos rfl, if_neg (by rw [hws]; simp),
    if_neg hp, if_neg hq, if_neg hcol, if_neg hquote, if_neg (by rw [hid]; simp)]

/-- C3 witness: the skip rule applied to the concrete character `@`. -/
theorem C3_lexer_leniency_witness :
    tokenizeAux 1 ['@'] true = tokenizeAux 0 [] true :=
  C3_lexer_leniency.1 0 '@' [] (by decide) (by decide) (by decide) (by decide)
    (by decide) (by decide) (by decide) (by decide)

/-- Evaluation of the expression reaches a pipe node whose filter name is
not registered in `reg`, following the evaluation order and the
short-circuiting of `evaluateExpression`: through the left operand of a
pipe, through already-successful earlier filter arguments, and only into
the taken branch of a ternary or the right operand of a falsy Or. The
reached name is the second index. -/
inductive ReachesUF (reg : Registry) (ctx : Ctx) : Expr → String → Prop where
  | pipeUnknown {left : Expr} {fname : String} {fargs : List Expr} {v : Value} :
      evaluateExpression reg ctx left = .ok v → reg fname = none →
      ReachesUF reg ctx (.pipe left fname fargs) fname
  | pipeLeft {left : Expr} {fname : String} {fargs : List Expr} {n : String} :
      ReachesUF reg ctx left n → ReachesUF reg ctx (.pipe left fname fargs) n
  | pipeArg {left : Expr} {fname : String} {fargs : List Expr} {v : Value}
      {fn : FilterFn} {pre : List Expr} {a : Expr} {post : List Expr}
      {vs : List Value} {n : String} :
      evaluateExpression reg ctx left = .ok v → reg fname = some fn →
      fargs = pre ++ a :: post → evalArgs reg ctx pre = .ok vs →
      ReachesUF reg ctx a n → ReachesUF reg ctx (.pipe left fname fargs) n
  | ternaryCond {c t f : Expr} {n : String} :
      ReachesUF reg ctx c n → ReachesUF reg ctx (.ternary c t f) n
  | ternaryTrue {c t f : Expr} {v : Value} {n : String} :
      evaluateExpression reg ctx c = .ok v → truthy v = true →
      ReachesUF reg ctx t n → ReachesUF reg ctx (.ternary c t f) n
  | ternaryFalse {c t f : Expr} {v : Value} {n : String} :
      evaluateExpression reg ctx c = .ok v → truthy v = false →
      ReachesUF reg ctx f n → ReachesUF reg ctx (.ternary c t f) n
  | orLeft {l r : Expr} {n : String} :
      ReachesUF reg ctx l n → ReachesUF reg ctx (.orE l r) n
  | orRight {l r : Expr} {v : Value} {n : String} :
      evaluateExpression reg ctx l = .ok v → truthy v = false →
      ReachesUF reg ctx r n → ReachesUF reg ctx (.orE l r) n

/-- Evaluation of the node sequence reaches a pipe with an unregistered
filter name; earlier nodes must have evaluated successfully. -/
inductive ReachesUFNodes (reg : Registry) (ctx : Ctx) : List ASTNode → String → Prop where
  | here {e : Expr} {rest : List ASTNode} {n : String} :
      ReachesUF reg ctx e n → ReachesUFNodes reg ctx (.template e :: rest) n
  | textSkip {v : String} {rest : List ASTNode} {n : String} :
      ReachesUFNodes reg ctx rest n → ReachesUFNodes reg ctx (.text v :: rest) n
  | templateSkip {e : Expr} {rest : List ASTNode} {n : String} {v : Value} :
      evaluateExpression reg ctx e = .ok v → ReachesUFNodes reg ctx rest n →
      ReachesUFNodes reg ctx (.template e :: rest) n

theorem evalArgs_append_error {reg : Registry} {ctx : Ctx} {a : Expr} {m : String}
    (ha : evaluateExpression reg ctx a = .error m) :
    ∀ {pre : List Expr} {vs : List Value} (post : List Expr),
      evalArgs reg ctx pre = .ok vs →
      evalArgs reg ctx (pre ++ a :: post) = .error m := by
  intro pre
  induction pre with
  | nil =>
      intro vs post _
      rw [List.nil_append]
      simp [evalArgs, ha]
  | cons e es ih =>
      intro vs post hpre
      rw [evalArgs] at hpre
      cases he : evaluateExpression reg ctx e with
      | error err => rw [he] at hpre; exact absurd hpre (by simp)
      | ok v =>
          rw [he] at hpre
          cases hes : evalArgs reg ctx es with
          | error err => rw [hes] at hpre; exact absurd hpre (by simp)
          | ok vs2 =>
              rw [List.cons_append]
              simp [evalArgs, he, ih post hes]

theorem evalArgs_error_split {reg : Registry} {ctx : Ctx} :
    ∀ {es : List Expr} {m : String}, evalArgs reg ctx es = .error m →
      ∃ pre a post vs, es = pre ++ a :: post ∧ evalArgs reg ctx pre = .ok vs ∧
        evaluateExpression reg ctx a = .error m := by
  intro es
  induction es with
  | nil => intro m h; rw [evalArgs] at h; exact absurd h (by simp)
  | cons e es ih =>
      intro m h
      rw [evalArgs] at h
      cases he : evaluateExpression reg ctx e with
      | error err =>
          rw [he] at h
          simp only [Except.error.injEq] at h
          subst h
          exact ⟨[], e, es, [], rfl, rfl, he⟩
      | ok v =>
          rw [he] at h
          cases hes : evalArgs reg ctx es with
          | error err =>
              rw [hes] at h
              simp only [Except.error.injEq] at h
              subst h
              obtain ⟨pre, a, post, vs, h1, h2, h3⟩ := ih hes
              refine ⟨e :: pre, a, post, v :: vs, by rw [h1, List.cons_append], ?_, h3⟩
              simp [evalArgs, he, h2]
          | ok vs => rw [hes] at h; exact absurd h (by simp)

theorem reachesUF_unregistered {reg : Registry} {ctx : Ctx} :
    ∀ {e : Expr} {n : String}, ReachesUF reg ctx e n → reg n = none := by
  intro e n h
  induction h with
  | pipeUnknown _ h2 => exact h2
  | pipeLeft _ ih => exact ih
  | pipeArg _ _ _ _ _ ih => exact ih
  | ternaryCond _ ih => exact ih
  | ternaryTrue _ _ _ ih => exact ih
  | ternaryFalse _ _ _ ih => exact ih
  | orLeft _ ih => exact ih
  | orRight _ _ _ ih => exact ih

theorem reachesUFNodes_unregistered {reg : Registry} {ctx : Ctx} :
    ∀ {ast : List ASTNode} {n : String}, ReachesUFNodes reg ctx ast n → reg n = none := by
  intro ast n h
  induction h with
  | here h1 => exact reachesUF_unregistered h1
  | textSkip _ ih => exact ih
  | templateSkip _ _ ih => exact ih

theorem reachesUF_eval_error {reg : Registry} {ctx : Ctx} :
    ∀ {e : Expr} {n : String}, ReachesUF reg ctx e n →
      evaluateExpression reg ctx e = .error ("Unknown filter: " ++ n) := by
  intro e n h
  induction h with
  | pipeUnknown h1 h2 => simp [evaluateExpression, h1, h2]
  | pipeLeft _ ih => simp [evaluateExpression, ih]
  | @pipeArg left fname fargs v fn pre a post vs n h1 h2 h3 h4 _ ih =>
      subst h3
      simp [evaluateExpression, h1, h2, evalArgs_append_error ih post h4]
  | ternaryCond _ ih => simp [evaluateExpression, ih]
  | ternaryTrue h1 h2 _ ih => simp [evaluateExpression, h1, h2, ih]
  | ternaryFalse h1 h2 _ ih => simp [evaluateExpression, h1, h2, ih]
  | orLeft _ ih => simp [evaluateExpression, ih]
  | orRight h1 h2 _ ih => simp [evaluateExpression, h1, h2, ih]

theorem reachesUFNodes_eval_error {reg : Registry} {ctx : Ctx} :
    ∀ {ast : List ASTNode} {n : String}, ReachesUFNodes reg ctx ast n →
      evaluate reg ast ctx = .error ("Unknown filter: " ++ n) := by
  intro ast n h
  have hn : evalNodes reg ctx ast = .error ("Unknown filter: " ++ n) := by
    induction h with
    | here h1 => simp [evalNodes, evaluateNode, reachesUF_eval_error h1]
    | textSkip _ ih => simp [evalNodes, evaluateNode, ih]
    | templateSkip h1 _ ih => simp [evalNodes, evaluateNode, h1, ih]
  simp [evaluate, hn]

theorem eval_error_reaches {reg : Registry} {ctx : Ctx} :
    ∀ (k : Nat) (e : Expr) (m : String), sizeOf e ≤ k →
      evaluateExpression reg ctx e = .error m →
      ∃ n, m = "Unknown filter: " ++ n ∧ ReachesUF reg ctx e n := by
  intro k
  induction k with
  | zero =>
      intro e m hk
      exfalso
      cases e <;> simp at hk
  | succ k ih =>
      intro e m hk he
      cases e with
      | var name => simp [evaluateExpression] at he
      | strLit v => simp [evaluateExpression] at he
      | pipe left fname fargs =>
          simp only [Expr.pipe.sizeOf_spec] at hk
          rw [evaluateExpression] at he
          cases hl : evaluateExpression reg ctx left with
          | error e1 =>
              rw [hl] at he
              simp only [Except.error.injEq] at he
              subst he
              obtain ⟨n, hn, hr⟩ := ih left e1 (by omega) hl
              exact ⟨n, hn, .pipeLeft hr⟩
          | ok v =>
              rw [hl] at he
              dsimp only at he
              cases hf : reg fname with
              | none =>
                  rw [hf] at he
                  simp only [Except.error.injEq] at he
                  exact ⟨fname, he.symm, .pipeUnknown hl hf⟩
              | some fn =>
                  rw [hf] at he
                  dsimp only at he
                  cases ha : evalArgs reg ctx fargs with
                  | error e2 =>
                      rw [ha] at he
                      simp only [Except.error.injEq] at he
                      subst he
                      obtain ⟨pre, a, post, vs, h1, h2, h3⟩ := evalArgs_error_split ha
                      have hmem : a ∈ fargs := by
                        rw [h1]
                        exact List.mem_append_right pre (List.mem_cons_self a post)
                      have hsa : sizeOf a < sizeOf fargs := List.sizeOf_lt_of_mem hmem
                      obtain ⟨n, hn, hr⟩ := ih a e2 (by omega) h3
                      exact ⟨n, hn, .pipeArg hl hf h1 h2 hr⟩
                  | ok args => rw [ha] at he; exact absurd he (by simp)
      | ternary c t f =>
          simp only [Expr.ternary.sizeOf_spec] at hk
          rw [evaluateExpression] at he
          cases hc : evaluateExpression reg ctx c with
          | error e1 =>
              rw [hc] at he
              simp only [Except.error.injEq] at he
              subst he
              obtain ⟨n, hn, hr⟩ := ih c e1 (by omega) hc
              exact ⟨n, hn, .ternaryCond hr⟩
          | ok v =>
              rw [hc] at he
              dsimp only at he
              cases htv : truthy v with
              | true =>
                  rw [if_pos htv] at he
                  obtain ⟨n, hn, hr⟩ := ih t m (by omega) he
                  exact ⟨n, hn, .ternaryTrue hc htv hr⟩
              | false =>
                  rw [if_neg (by simp [htv])] at he
                  obtain ⟨n, hn, hr⟩ := ih f m (by omega) he
                  exact ⟨n, hn, .ternaryFalse hc htv hr⟩
      | orE l r =>
          simp only [Expr.orE.sizeOf_spec] at hk
          rw [evaluateExpression] at he
          cases hl : evaluateExpression reg ctx l with
          | error e1 =>
              rw [hl] at he
              simp only [Except.error.injEq] at he
              subst he
              obtain ⟨n, hn, hr⟩ := ih l e1 (by omega) hl
              exact ⟨n, hn, .orLeft hr⟩
          | ok v =>
              rw [hl] at he
              dsimp only at he
              cases htv : truthy v with
              | true => rw [if_pos htv] at he; exact absurd he (by simp)
              | false =>
                  rw [if_neg (by simp [htv])] at he
                  obtain ⟨n, hn, hr⟩ := ih r m (by omega) he
                  exact ⟨n, hn, .orRight hl htv hr⟩

theorem evalNodes_error_reaches {reg : Registry} {ctx : Ctx} :
    ∀ {ast : List ASTNode} {m : String}, evalNodes reg ctx ast = .error m →
      ∃ n, m = "Unknown filter: " ++ n ∧ ReachesUFNodes reg ctx ast n := by
  intro ast
  induction ast with
  | nil => intro m h; rw [evalNodes] at h; exact absurd h (by simp)
  | cons nd rest ih =>
      intro m h
      rw [evalNodes] at h
      cases nd with
      | text v =>
          have hv : evaluateNode reg ctx (.text v) = .ok v := rfl
          rw [hv] at h
          dsimp only at h
          cases hr : evalNodes reg ctx rest with
          | error err =>
              rw [hr] at h
              simp only [Except.error.injEq] at h
              subst h
              obtain ⟨n, hn, hreach⟩ := ih hr
              exact ⟨n, hn, .textSkip hreach⟩
          | ok ss => rw [hr] at h; exact absurd h (by simp)
      | template e =>
          cases hee : evaluateExpression reg ctx e with
          | error err =>
              have hv : evaluateNode reg ctx (.template e) = .error err := by
                simp [evaluateNode, hee]
              rw [hv] at h
              simp only [Except.error.injEq] at h
              subst h
              obtain ⟨n, hn, hreach⟩ := eval_error_reaches (sizeOf e) e err le_rfl hee
              exact ⟨n, hn, .here hreach⟩
          | ok v =>
              have hv : evaluateNode reg ctx (.template e) = .ok (jsToString v) := by
                simp [evaluateNode, hee]
              rw [hv] at h
              dsimp only at h
              cases hr : evalNodes reg ctx rest with
              | error err =>
                  rw [hr] at h
                  simp only [Except.error.injEq] at h
                  subst h
                  obtain ⟨n, hn, hreach⟩ := ih hr
                  exact ⟨n, hn, .templateSkip hee hreach⟩
              | ok ss => rw [hr] at h; exact absurd h (by simp)

theorem evaluate_error_iff_evalNodes {reg : Registry} {ast : List ASTNode} {ctx : Ctx}
    {m : String} : evaluate reg ast ctx = .error m ↔ evalNodes reg ctx ast = .error m := by
  unfold evaluate
  cases h : evalNodes reg ctx ast <;> simp

theorem compileFn_error_parseErr {t : String} {err : RenderError}
    (h : compileFn t = .error err) : ∃ msg, err = .parseErr msg := by
  unfold compileFn at h
  cases hp : parseTemplateString t with
  | ok ast => rw [hp] at h; exact absurd h (by simp)
  | error msg =>
      rw [hp] at h
      simp only [Except.error.injEq] at h
      exact ⟨msg, h.symm⟩

/-- C4: rendering on a fresh engine raises an EvaluationError with
message `Unknown filter: <name>` exactly when the template compiles and
evaluation reaches a Pipe node whose filter name is unregistered in the
default registry (the reached name being the one reported); the `Except`
result makes the failure fatal — an error excludes any rendered string —
and the concrete render of an unknown filter fails as stated. -/
theorem C4_unknown_filter :
    (∀ (t : String) (ctx : Ctx) (m : String),
      render t ctx = .error (.evalErr m) ↔
        ∃ ast n, compileFn t = .ok ast ∧ m = "Unknown filter: " ++ n ∧
          defaultFilters n = none ∧ ReachesUFNodes defaultFilters ctx ast n) ∧
    render "\x7b\x7b x | nope \x7d\x7d" [] = .error (.evalErr "Unknown filter: nope") := by
  refine ⟨?_, rfl⟩
  intro t ctx m
  constructor
  · intro h
    unfold render at h
    cases hcf : compileFn t with
    | error err =>
        rw [hcf] at h
        simp only [Except.error.injEq] at h
        obtain ⟨msg, hmsg⟩ := compileFn_error_parseErr hcf
        rw [hmsg] at h
        exact absurd h (by simp)
    | ok ast =>
        rw [hcf] at h
        dsimp only at h
        cases hev : evaluate defaultFilters ast ctx with
        | ok s => rw [hev] at h; exact absurd h (by simp)
        | error m2 =>
            rw [hev] at h
            simp only [Except.error.injEq, RenderError.evalErr.injEq] at h
            subst h
            obtain ⟨n, hn, hreach⟩ :=
              evalNodes_error_reaches (evaluate_error_iff_evalNodes.mp hev)
            exact ⟨ast, n, rfl, hn, reachesUFNodes_unregistered hreach, hreach⟩
  · rintro ⟨ast, n, hcf, hm, _, hreach⟩
    subst hm
    unfold render
    rw [hcf]
    dsimp only
    rw [reachesUFNodes_eval_error hreach]
